import Mathlib

/-!
Verification of the generation job queue of a stable-diffusion chat bot.

The definitions below are shallow embeddings of the Go sources:
  imagine_queue/queue.go            (primary queue, directive extractors, lookupModel)
  imagine_queue/image_to_image.go   (processCurrentImagine parameter derivation)
  queue/stable_diffusion/text_to_image.go (model reconciler, progress poller)
  queue/novelai (NAIQueue)          (secondary queue)

Go machine integers are modelled as Int with explicit bounds where the code
checks them; Go float64 values are modelled as rationals, which agrees with the
source on every comparison the code performs (the code only compares and
truncates values that are exactly representable in this range); Go maps whose
values are only the constant true are modelled as lists of keys.
-/

namespace SDBot

/-! ### Queue data model (imagine_queue/queue.go) -/

/-- ItemType is an int in the source (iota constants); values outside the six
named constants fall into the switch default. -/
abbrev ItemType := Int

def ItemTypeImagine : ItemType := 0
def ItemTypeReroll : ItemType := 1
def ItemTypeUpscale : ItemType := 2
def ItemTypeVariation : ItemType := 3
def ItemTypeImg2Img : ItemType := 4
def ItemTypeRaw : ItemType := 5

/-- The QueueItem fields the queue state machine reads: the item type and the
DiscordInteraction handle (nil modelled as none; only its ID is consulted). -/
structure QItem where
  itemType : ItemType
  handle : Option String
  deriving DecidableEq, Repr

/-- queueImplementation state: the buffered channel of pending items, the
single currentImagine pointer, and the cancelledItems map (set of IDs). -/
structure QueueState where
  queue : List QItem
  currentImagine : Option QItem
  cancelledItems : List String
  deriving DecidableEq, Repr

/-- Observable side effects of a queue step, used to state that a path makes
no backend call and sends no reply. -/
inductive Effect where
  | logWarning
  | fatalNilInteraction
  | dispatched (t : ItemType)
  | errorReply
  deriving DecidableEq, Repr

/-- Capacity of the primary pipeline channel: make(chan *QueueItem, 100). -/
def sdQueueCapacity : Nat := 100

/-- Capacity of the secondary NovelAI channel: make(chan *NAIQueueItem, 24). -/
def naiQueueCapacity : Nat := 24

/-- AddImagine performs an unguarded send on the buffered channel and then
returns len(q.queue) and a nil error.  A send on a buffered channel succeeds
immediately while the buffer has room and blocks the caller otherwise; the
blocked case is modelled as none (the call does not return).  There is no
error return besides nil in the source. -/
def AddImagine (s : QueueState) (item : QItem) : Option (QueueState × Int) :=
  if s.queue.length < sdQueueCapacity then
    some ({ s with queue := s.queue ++ [item] }, (s.queue.length : Int) + 1)
  else
    none

/-- Result triple of NAIQueue.Add: the returned position, the returned error,
and the queue afterwards. -/
structure NAIAddResult where
  pos : Int
  err : Option String
  queue : List QItem
  deriving DecidableEq, Repr

/-- NAIQueue.Add checks len(q.queue) == cap(q.queue) first and returns
(-1, error) when full; otherwise it sends and returns len(q.queue). -/
def NAIQueue.Add (queue : List QItem) (item : QItem) : NAIAddResult :=
  if queue.length == naiQueueCapacity then
    ⟨-1, some "queue is full", queue⟩
  else
    ⟨(queue.length : Int) + 1, none, queue ++ [item]⟩

/-- done acquires the lock and clears currentImagine. -/
def done (s : QueueState) : QueueState := { s with currentImagine := none }

/-- RemoveFromQueue acquires the lock and marks the interaction ID in the
cancelledItems map, unconditionally: it does not look at currentImagine. -/
def RemoveFromQueue (s : QueueState) (id : String) : QueueState :=
  { s with cancelledItems :=
      if s.cancelledItems.contains id then s.cancelledItems else id :: s.cancelledItems }

/-- pullNextInQueue: loop while the channel is non-empty; bail out with only a
log line if currentImagine is already set; otherwise receive the head item
into currentImagine, fail fast on a nil interaction, skip (and done) a
cancelled item, dispatch known item types to their processors, and for an
unknown type reply with an error, call done and keep looping. -/
def pullNextInQueue (s : QueueState) : QueueState × List Effect :=
  match hq : s.queue with
  | [] => (s, [])
  | item :: rest =>
    if s.currentImagine.isSome then
      (s, [.logWarning])
    else
      let s1 : QueueState := { s with queue := rest, currentImagine := some item }
      match item.handle with
      | none => (s1, [.fatalNilInteraction])
      | some hid =>
        if s1.cancelledItems.contains hid then
          (done { s1 with cancelledItems := s1.cancelledItems.erase hid }, [])
        else if item.itemType = ItemTypeImagine ∨ item.itemType = ItemTypeReroll
            ∨ item.itemType = ItemTypeVariation ∨ item.itemType = ItemTypeRaw
            ∨ item.itemType = ItemTypeImg2Img ∨ item.itemType = ItemTypeUpscale then
          let next := pullNextInQueue s1
          (next.1, .dispatched item.itemType :: next.2)
        else
          let next := pullNextInQueue (done s1)
          (next.1, .errorReply :: next.2)
termination_by s.queue.length
decreasing_by
  all_goals simp_all [hq, done]

/-- Outcomes of the processCurrentImagine goroutine body: the upscale early
return, the reroll-lookup error return, the imagine-grid error return, and
normal completion.  Every one of them exits the function body. -/
inductive JobOutcome where
  | upscaleReturn
  | prevGenError
  | gridError
  | completed
  deriving DecidableEq, Repr

/-- processCurrentImagine wraps its body in defer q.done(): whatever branch
the body exits through, the deferred done runs afterwards.  The body outcome
only determines which replies were sent. -/
def processCurrentImagineStep (s : QueueState) (o : JobOutcome) : QueueState × List Effect :=
  let bodyEffects : List Effect :=
    match o with
    | .upscaleReturn => []
    | .prevGenError => [.errorReply]
    | .gridError => [.errorReply]
    | .completed => []
  (done s, bodyEffects)

/-- Interrupt returns an error when no generation is in progress and otherwise
signals the current item; it never touches cancelledItems or the queue. -/
def Interrupt (s : QueueState) : Except String QueueState :=
  match s.currentImagine with
  | none => .error "there is no generation currently in progress"
  | some _ => .ok s

/-! ### Go numeric parsing helpers (strconv) -/

def int64Max : Int := 9223372036854775807
def int64Min : Int := -9223372036854775808

/-- Consume a maximal run of ASCII digits; return value, digit count, rest. -/
def parseDigitsAux : List Char → Nat → Nat → Nat × Nat × List Char
  | [], acc, cnt => (acc, cnt, [])
  | c :: cs, acc, cnt =>
    if c.isDigit then parseDigitsAux cs (acc * 10 + (c.toNat - 48)) (cnt + 1)
    else (acc, cnt, c :: cs)

/-- Digit run of strconv integer parsing: at least one digit, full
consumption, 64-bit range check; the sign was consumed by the caller. -/
def goParseIntCore (neg : Bool) (ds : List Char) : Option Int :=
  match parseDigitsAux ds 0 0 with
  | (_, 0, _) => none
  | (v, _, []) =>
    let r : Int := if neg then -(v : Int) else (v : Int)
    if r < int64Min ∨ int64Max < r then none else some r
  | (_, _, _ :: _) => none

/-- strconv.ParseInt(s, 10, 64) and strconv.Atoi: optional sign, decimal
digits, full consumption, 64-bit range; errors are none. -/
def goParseInt (s : String) : Option Int :=
  match s.data with
  | [] => none
  | c :: cs =>
    if c = '-' then goParseIntCore true cs
    else if c = '+' then goParseIntCore false cs
    else goParseIntCore false (c :: cs)

/-- strconv.Atoi on a 64-bit platform. -/
def goAtoi (s : String) : Option Int := goParseInt s

/-- strconv.ParseFloat(s, 64) restricted to plain decimal literals
(optional sign, digits, optional fraction); the exponent and hex forms the
prompts never contain are rejected.  The value is exact as a rational. -/
def goParseFloat (s : String) : Option ℚ :=
  let signed : Bool × List Char :=
    match s.data with
    | '-' :: r => (true, r)
    | '+' :: r => (false, r)
    | r => (false, r)
  let (ip, ic, rest1) := parseDigitsAux signed.2 0 0
  let (fp, fc, rest2) :=
    match rest1 with
    | '.' :: r => parseDigitsAux r 0 0
    | r => (0, 0, r)
  let dotted : Bool := match rest1 with | '.' :: _ => true | _ => false
  if rest2 = [] ∧ 0 < ic + fc ∧ (dotted ∨ rest1 = []) then
    some ((if signed.1 then -1 else 1) * ((ip : ℚ) + (fp : ℚ) / ((10 ^ fc : Nat) : ℚ)))
  else
    none

/-- between clamps value into [minimum, maximum] via min(max(minimum, v), maximum). -/
def between (value minimum maximum : ℚ) : ℚ := min (max minimum value) maximum

/-- Go int() conversion of a finite float: truncation toward zero. -/
def goTrunc (q : ℚ) : Int := if q < 0 then ⌈q⌉ else ⌊q⌋

/-- The source rounds up to the next multiple of 8 with (n + 7) & (-8); in
two-complement arithmetic this clears the low three bits of n + 7, which is
(n + 7) - ((n + 7) mod 8) for every integer. -/
def roundUp8 (n : Int) : Int := (n + 7) - (n + 7) % 8

/-! ### Directive parser (imagine_queue/queue.go) -/

/-- RE2 word character: [0-9A-Za-z_]. -/
def isWordChar (c : Char) : Bool := c.isAlphanum || c = '_'

/-- Character class of the keyValue value token: word characters, dot, slash,
backslash. -/
def isValueChar (c : Char) : Bool := isWordChar c || c = '.' || c = '/' || c = '\\'

/-- Consume further dash groups after the first: each group is a double
hyphen or one em dash, matching the greedy (?:--|—)+ closure. -/
def eatMoreDashes : List Char → List Char
  | '-' :: '-' :: rest => eatMoreDashes rest
  | '—' :: rest => eatMoreDashes rest
  | cs => cs

/-- Consume at least one dash group, as (?:--|—)+ requires. -/
def eatDashGroups : List Char → Option (List Char)
  | '-' :: '-' :: rest => some (eatMoreDashes rest)
  | '—' :: rest => some (eatMoreDashes rest)
  | _ => none

/-- One attempt of the keyValue pattern (?:--|—)+(\w+)(?: ([\w.\/\\]+))? at
the current position, the not-a-word-boundary test having been checked by the
caller.  Returns the key, the value (empty when the optional group fails),
the last character the match consumed, and the rest of the input.  Greedy
consumption is exact here: backtracking the dash closure always leaves a dash
under \w+, which fails, so the greedy parse is the only possible one. -/
def tryMatch (cs : List Char) : Option (String × String × Char × List Char) :=
  match eatDashGroups cs with
  | none => none
  | some afterDashes =>
    match afterDashes.span isWordChar with
    | ([], _) => none
    | (key, afterKey) =>
      match afterKey with
      | ' ' :: v1 =>
        match v1.span isValueChar with
        | ([], _) => some (String.mk key, "", key.getLastD '-', afterKey)
        | (val, afterVal) => some (String.mk key, String.mk val, val.getLastD '-', afterVal)
      | _ => some (String.mk key, "", key.getLastD '-', afterKey)

/-- Scan the prompt once, producing the submatch list of
FindAllStringSubmatch and the characters ReplaceAllString keeps.  prevIsW
tracks whether the previous character is a word character; a match may start
only where \B holds, which for a leading dash means the previous character is
not a word character. -/
def scanKVAux : Nat → Bool → List Char → List (String × String) × List Char
  | 0, _, cs => ([], cs)
  | _ + 1, _, [] => ([], [])
  | fuel + 1, prevIsW, c :: rest =>
    if prevIsW then
      let (ps, keep) := scanKVAux fuel (isWordChar c) rest
      (ps, c :: keep)
    else
      match tryMatch (c :: rest) with
      | some (k, v, lastC, rem) =>
        let (ps, keep) := scanKVAux fuel (isWordChar lastC) rem
        ((k, v) :: ps, keep)
      | none =>
        let (ps, keep) := scanKVAux fuel (isWordChar c) rest
        (ps, c :: keep)

/-- strings.TrimSpace: drop whitespace from both ends. -/
def trimSpaceList (cs : List Char) : List Char :=
  ((cs.dropWhile Char.isWhitespace).reverse.dropWhile Char.isWhitespace).reverse

/-- extractKeyValuePairsFromPrompt: parameters from all keyValue submatches
(in match order; the Go map keeps the last value for a repeated key) and the
prompt with all matches removed and TrimSpace applied. -/
def extractKeyValuePairsFromPrompt (prompt : String) : List (String × String) × String :=
  let cs := prompt.data
  let (ps, keep) := scanKVAux (cs.length + 1) false cs
  (ps, String.mk (trimSpaceList keep))

/-- Go map read parameters[k] after all assignments: the last submatch wins. -/
def lookupParam (ps : List (String × String)) (k : String) : Option String :=
  (ps.reverse.find? (fun p => p.1 == k)).map (·.2)

/-- strings.Split(s, ":") on the character list. -/
def splitOnColon : List Char → List (List Char)
  | [] => [[]]
  | c :: rest =>
    let r := splitOnColon rest
    if c = ':' then [] :: r
    else
      match r with
      | h :: t => (c :: h) :: t
      | [] => [[c]]

def goSplitColon (s : String) : List String := (splitOnColon s.data).map String.mk

/-- aspectRatioCalculation: split W:H, convert both sides with Atoi, scale
the smaller-ratio axis of the base size by the ratio and round the scaled
axis up to a multiple of 8; any malformed input returns the base size. -/
def aspectRatioCalculation (aspectRatio : String) (w h : Int) : Int × Int :=
  match goSplitColon aspectRatio with
  | [a, b] =>
    match goAtoi a, goAtoi b with
    | some widthRatio, some heightRatio =>
      if widthRatio > heightRatio then
        (roundUp8 (goTrunc ((h : ℚ) * ((widthRatio : ℚ) / (heightRatio : ℚ)))), h)
      else if heightRatio > widthRatio then
        (w, roundUp8 (goTrunc ((w : ℚ) * ((heightRatio : ℚ) / (widthRatio : ℚ)))))
      else
        (w, h)
    | _, _ => (w, h)
  | _ => (w, h)

def initializedWidth : Int := 512
def initializedHeight : Int := 512

/-- The QueueItem fields the parameter-derivation slice of
processCurrentImagine reads. -/
structure ItemParams where
  prompt : String
  aspectRatio : String
  useHiresFix : Bool
  hiresUpscaleRate : ℚ
  seed : Int
  cfgScale : ℚ
  steps : Int
  deriving DecidableEq, Repr

/-- The generation parameters processCurrentImagine derives before reaching
the backend-dependent part (sampler, negative prompt, model resolution and
script blocks are independent of these fields and are omitted here). -/
structure GenDerived where
  prompt : String
  width : Int
  height : Int
  steps : Int
  cfgScale : ℚ
  seed : Int
  enableHr : Bool
  hrScale : ℚ
  hrResizeX : Int
  hrResizeY : Int
  deriving DecidableEq, Repr

/-- The live parameter derivation of processCurrentImagine
(imagine_queue, ItemTypeImagine path): build the initial request from the
item, extract the key-value directives, apply the aspect-ratio field or the
ar directive, derive the hires-fix target size, then apply the zoom, step,
cfgscale and seed directives.  A directive that fails to parse is logged and
ignored; no range check is applied to step, cfgscale or seed, and the zoom
value is clamped into [1, 2] by between. -/
def deriveParameters (c : ItemParams) (defaultWidth defaultHeight : Int) : GenDerived :=
  let g0 : GenDerived :=
    { prompt := c.prompt
      width := defaultWidth
      height := defaultHeight
      steps := c.steps
      cfgScale := c.cfgScale
      seed := c.seed
      enableHr := c.useHiresFix
      hrScale := between c.hiresUpscaleRate 1 2
      hrResizeX := initializedWidth
      hrResizeY := initializedHeight }
  let pr := extractKeyValuePairsFromPrompt c.prompt
  let parameters := pr.1
  let g1 := { g0 with prompt := pr.2 }
  let wh : Int × Int :=
    if c.aspectRatio ≠ "" ∧ c.aspectRatio ≠ "1:1" then
      aspectRatioCalculation c.aspectRatio defaultWidth defaultHeight
    else
      match lookupParam parameters "ar" with
      | some ar => aspectRatioCalculation ar defaultWidth defaultHeight
      | none => (defaultWidth, defaultHeight)
  let g2 := { g1 with width := wh.1, height := wh.2 }
  let adjustedWidth : Int := g2.width
  let adjustedHeight : Int := g2.height
  let g3 :=
    if g2.enableHr ∧ g2.hrScale > 1 then
      { g2 with
        hrResizeX := goTrunc ((adjustedWidth : ℚ) * g2.hrScale)
        hrResizeY := goTrunc ((adjustedHeight : ℚ) * g2.hrScale) }
    else
      { g2 with enableHr := false, hrResizeX := adjustedWidth, hrResizeY := adjustedHeight }
  let g4 :=
    match lookupParam parameters "zoom" with
    | none => g3
    | some z =>
      match goParseFloat z with
      | none => g3
      | some zoomScale =>
        let hrScale := between zoomScale 1 2
        { g3 with
          enableHr := true
          hrScale := hrScale
          hrResizeX := goTrunc ((adjustedWidth : ℚ) * hrScale)
          hrResizeY := goTrunc ((adjustedHeight : ℚ) * hrScale) }
  let g5 :=
    match lookupParam parameters "step" with
    | none => g4
    | some st =>
      match goAtoi st with
      | none => g4
      | some stepInt => { g4 with steps := stepInt }
  let g6 :=
    match lookupParam parameters "cfgscale" with
    | none => g5
    | some cf =>
      match goParseFloat cf with
      | none => g5
      | some cfgScaleFloat => { g5 with cfgScale := cfgScaleFloat }
  let g7 :=
    match lookupParam parameters "seed" with
    | none => g6
    | some sd =>
      match goParseInt sd with
      | none => g6
      | some seedInt => { g6 with seed := seedInt }
  g7

/-! ### Deprecated single-directive extractors (imagine_queue/queue.go)

Each deprecated extractor matches one pattern of the shape
\s?--name (capture)\s? with FindStringSubmatch, removes every match with
ReplaceAllString, and post-processes the first captured value.  The matcher
below implements that pattern class directly. -/

/-- Capture of the seed pattern: \d+ (greedy, at least one digit). -/
def captureDigits (cs : List Char) : Option (List Char × List Char) :=
  if (cs.span Char.isDigit).1 = [] then none
  else some ((cs.span Char.isDigit).1, (cs.span Char.isDigit).2)

/-- Capture of the cfgscale and zoom patterns: \d\d?\.?\d? with each optional
atom taken greedily. -/
def captureFloat2 (cs : List Char) : Option (List Char × List Char) :=
  match cs with
  | d1 :: rest =>
    if d1.isDigit then
      let (d2, rest) := match rest with
        | c :: r => if c.isDigit then ([c], r) else ([], c :: r)
        | [] => ([], [])
      let (dot, rest) := match rest with
        | '.' :: r => (['.'], r)
        | r => ([], r)
      let (d3, rest) := match rest with
        | c :: r => if c.isDigit then ([c], r) else ([], c :: r)
        | [] => ([], [])
      some (d1 :: (d2 ++ dot ++ d3), rest)
    else none
  | [] => none

/-- Try the pattern \s?--name (capture)\s? at the current position: an
optional whitespace character, the literal directive text, the capture, then
an optional trailing whitespace character.  Returns the capture and the rest
after the whole match. -/
def matchDirCore (lit : List Char) (capture : List Char → Option (List Char × List Char))
    (cs : List Char) : Option (List Char × List Char) :=
  match cs.dropPrefix? lit with
  | none => none
  | some rest =>
    match capture rest with
    | none => none
    | some (cap, rest2) =>
      match rest2 with
      | c :: r => if c.isWhitespace then some (cap, r) else some (cap, rest2)
      | [] => some (cap, [])

def matchDirAt (lit : List Char) (capture : List Char → Option (List Char × List Char))
    (cs : List Char) : Option (List Char × List Char) :=
  match cs with
  | c :: r =>
    if c.isWhitespace then
      (matchDirCore lit capture r).orElse (fun _ => matchDirCore lit capture (c :: r))
    else
      matchDirCore lit capture (c :: r)
  | [] => none

/-- All matches of the pattern in scan order: the list of captures and the
input with every match removed (FindStringSubmatch keeps the first capture;
ReplaceAllString removes all matches). -/
def scanDirAux (lit : List Char) (capture : List Char → Option (List Char × List Char)) :
    Nat → List Char → List (List Char) × List Char
  | 0, cs => ([], cs)
  | _ + 1, [] => ([], [])
  | fuel + 1, c :: rest =>
    match matchDirAt lit capture (c :: rest) with
    | some (cap, rem) =>
      let (caps, keep) := scanDirAux lit capture fuel rem
      (cap :: caps, keep)
    | none =>
      let (caps, keep) := scanDirAux lit capture fuel rest
      (caps, c :: keep)

/-- First capture of the pattern and the sanitized prompt. -/
def scanDir (lit : String) (capture : List Char → Option (List Char × List Char))
    (prompt : String) : Option String × String :=
  let cs := prompt.data
  let (caps, keep) := scanDirAux lit.data capture (cs.length + 1) cs
  ((caps.head?).map String.mk, String.mk keep)

/-- Deprecated extractCFGScaleFromPrompt: no match keeps the default; a match
that fails ParseFloat is an error; a parsed value outside [1, 30] falls back
to the default.  The result pairs the sanitized prompt with the value. -/
def extractCFGScaleFromPrompt (prompt : String) (defaultScale : ℚ) :
    Option (String × ℚ) :=
  match scanDir "--cfgscale " captureFloat2 prompt with
  | (none, _) => some (prompt, defaultScale)
  | (some capture, sanitized) =>
    match goParseFloat capture with
    | none => none
    | some c => some (sanitized, if c < 1 ∨ c > 30 then defaultScale else c)

/-- Deprecated extractZoomScaleFromPrompt: same shape with range [1, 4]. -/
def extractZoomScaleFromPrompt (prompt : String) (defaultZoomScale : ℚ) :
    Option (String × ℚ) :=
  match scanDir "--zoom " captureFloat2 prompt with
  | (none, _) => some (prompt, defaultZoomScale)
  | (some capture, sanitized) =>
    match goParseFloat capture with
    | none => none
    | some z => some (sanitized, if z < 1 ∨ z > 4 then defaultZoomScale else z)

/-- Deprecated extractSeedFromPrompt: a matched \d+ value is parsed with
ParseInt (an out-of-range literal is an error, not a clamp) and then passed
through min with MaxInt64; with no directive, a zero default becomes -1 and a
nonzero default is passed through min with MaxInt64. -/
def extractSeedFromPrompt (prompt : String) (defaultSeed : Int) :
    Option (String × Int) :=
  match scanDir "--seed " captureDigits prompt with
  | (none, _) =>
    some (prompt, if defaultSeed = 0 then -1 else min int64Max defaultSeed)
  | (some capture, sanitized) =>
    match goParseInt capture with
    | none => none
    | some s => some (sanitized, min int64Max s)

/-! ### Model reconciler (lookupModel in imagine_queue/queue.go,
updateModels / revertModels / switchToModels in
queue/stable_diffusion/text_to_image.go) -/

/-- entities.Config restricted to the three slots the reconciler touches; a
none slot is an absent field. -/
structure SDConfig where
  sdModelCheckpoint : Option String
  sdVae : Option String
  sdHypernetwork : Option String
  deriving DecidableEq, Repr

/-- The requested checkpoint, VAE and hypernetwork of a generation request. -/
structure RequestedModels where
  checkpoint : Option String
  vae : Option String
  hypernetwork : Option String
  deriving DecidableEq, Repr

/-- ptrStringCompare: nil pointers compare equal only to nil; two non-nil
pointers compare by value. -/
def ptrStringCompare (s1 s2 : Option String) : Bool :=
  match s1, s2 with
  | none, none => true
  | none, some _ => false
  | some _, none => false
  | some a, some b => a == b

/-- ptrStringNotBlank: non-nil and not the empty string. -/
def ptrStringNotBlank (s : Option String) : Bool :=
  match s with
  | none => false
  | some v => v ≠ ""

/-- The per-slot cache and the fuzzy search are external inputs of
lookupModel: the cache fetch may fail, and fuzzy.FindFrom returns a ranked
list whose top entry (when any) substitutes the requested name.  Both are
passed in as parameters. -/
structure ModelEnv where
  checkpointCache : Except Unit (List String)
  vaeCache : Except Unit (List String)
  hypernetworkCache : Except Unit (List String)
  fuzzyTop : String → List String → Option String

/-- One iteration of the lookupModel loop for one slot: an empty requested
name is normalized to nil, the literal "None" passes through, any other name
is resolved against the cached inventory (a cache fetch error skips the rest
of the iteration, leaving the patch slot at its nil zero value; an empty
fuzzy result keeps the requested name).  The currently loaded name is only
compared for a log line and does not influence the result. -/
def lookupSlot (env : ModelEnv) (cache : Except Unit (List String))
    (toLoad : Option String) : Option String :=
  match toLoad with
  | none => none
  | some s =>
    if s = "" then none
    else if s = "None" then some "None"
    else
      match cache with
      | .error _ => none
      | .ok inventory =>
        match env.fuzzyTop s inventory with
        | some first => some first
        | none => some s

/-- lookupModel assembles the POST entities.Config from the three slots; the
live config argument is read only for logging. -/
def lookupModel (env : ModelEnv) (request : RequestedModels) (_config : SDConfig) :
    SDConfig where
  sdModelCheckpoint := lookupSlot env env.checkpointCache request.checkpoint
  sdVae := lookupSlot env env.vaeCache request.vae
  sdHypernetwork := lookupSlot env env.hypernetworkCache request.hypernetwork

/-- Modelled from the spec: the backend collaborator behind
UpdateConfiguration and GetConfig is not under src.  Per the spec, an absent
(unset) slot in the outbound patch does not change that slot on the backend,
and a present slot overwrites it; GetConfig returns the live configuration. -/
def applyPatch (patch live : SDConfig) : SDConfig where
  sdModelCheckpoint :=
    match patch.sdModelCheckpoint with
    | some v => some v
    | none => live.sdModelCheckpoint
  sdVae :=
    match patch.sdVae with
    | some v => some v
    | none => live.sdVae
  sdHypernetwork :=
    match patch.sdHypernetwork with
    | some v => some v
    | none => live.sdHypernetwork

/-- updateModels: when the three raw requested names already equal the live
configuration per ptrStringCompare, nothing is sent; otherwise
UpdateConfiguration is called with the lookupModel patch and the
configuration is re-read.  Returns the configuration snapshot the caller
keeps, the live backend configuration afterwards, and the list of patch
calls issued. -/
def updateModels (env : ModelEnv) (request : RequestedModels) (backend : SDConfig) :
    SDConfig × SDConfig × List SDConfig :=
  if ptrStringCompare request.checkpoint backend.sdModelCheckpoint
      ∧ ptrStringCompare request.vae backend.sdVae
      ∧ ptrStringCompare request.hypernetwork backend.sdHypernetwork then
    (backend, backend, [])
  else
    let post := lookupModel env request backend
    let live := applyPatch post backend
    (live, live, [post])

/-- revertModels: compare the kept configuration snapshot against the
original per slot with ptrStringCompare and, when any slot differs, call
UpdateConfiguration with the three original slots.  Returns the live backend
configuration afterwards and the calls issued. -/
def revertModels (config originalConfig : SDConfig) (backend : SDConfig) :
    SDConfig × List SDConfig :=
  if ¬ (ptrStringCompare config.sdModelCheckpoint originalConfig.sdModelCheckpoint
      ∧ ptrStringCompare config.sdVae originalConfig.sdVae
      ∧ ptrStringCompare config.sdHypernetwork originalConfig.sdHypernetwork) then
    let patch : SDConfig :=
      { sdModelCheckpoint := originalConfig.sdModelCheckpoint
        sdVae := originalConfig.sdVae
        sdHypernetwork := originalConfig.sdHypernetwork }
    (applyPatch patch backend, [patch])
  else
    (backend, [])

/-- The model bracket of processImagineGrid around one job: switchToModels
records the pre-switch configuration as original and applies the switch;
midJob is whatever happens to the live configuration while the job runs (the
identity when nothing external intervenes); revertModels runs after the
final reply.  Returns the live backend configuration after the job. -/
def processJobModels (env : ModelEnv) (request : RequestedModels) (backend0 : SDConfig)
    (midJob : SDConfig → SDConfig) : SDConfig :=
  let originalConfig := backend0
  let r := updateModels env request backend0
  let config := r.1
  let backend1 := r.2.1
  let backend2 := midJob backend1
  (revertModels config originalConfig backend2).1

/-! ### Progress poller (updateProgressBar in
queue/stable_diffusion/text_to_image.go) -/

/-- One firing of the four-way select in updateProgressBar.  A tick carries
the result of the progress query (none when the query errors) and whether the
status edit would succeed; the memory readouts only affect the text and
their failures are logged, not surfaced. -/
inductive PollEvent where
  | generationDone
  | interrupt (interruptCallOk : Bool)
  | tick (progress : Option ℚ) (renderOk : Bool)
  | timeout
  deriving DecidableEq, Repr

/-- How the poller loop exited. -/
inductive PollerExit where
  | completed
  | interrupted
  | interruptCallError
  | tickQueryError
  | tickRenderError
  | timedOut
  | streamEnded
  deriving DecidableEq, Repr

/-- updateProgressBar over a stream of select firings: count the status edits
performed and report how the loop exited.  A tick whose progress query fails
surfaces the error and returns; a tick with progress exactly zero skips the
edit and loops; a tick whose edit fails logs and returns; every non-tick
event returns on its first firing. -/
def updateProgressBar : List PollEvent → Nat → Nat × PollerExit
  | [], edits => (edits, .streamEnded)
  | e :: rest, edits =>
    match e with
    | .generationDone => (edits, .completed)
    | .interrupt ok => if ok then (edits, .interrupted) else (edits, .interruptCallError)
    | .timeout => (edits, .timedOut)
    | .tick none _ => (edits, .tickQueryError)
    | .tick (some p) renderOk =>
      if p = 0 then
        updateProgressBar rest edits
      else if renderOk then
        updateProgressBar rest (edits + 1)
      else
        (edits, .tickRenderError)

/-! ### Status message (imagineMessageContent in imagine_queue/queue.go)

Go strings are byte strings: out.Len() and the slice out.String()[:2000]
operate on UTF-8 bytes.  The builder is modelled as a Lean string (a char
sequence) whose UTF-8 encoding is taken at the end, where the source
measures and slices. -/

/-- UTF-8 encoding of one character. -/
def utf8EncodeChar (c : Char) : List Nat :=
  let n := c.toNat
  if n < 128 then [n]
  else if n < 2048 then [192 + n / 64, 128 + n % 64]
  else if n < 65536 then [224 + n / 4096, 128 + (n / 64) % 64, 128 + n % 64]
  else [240 + n / 262144, 128 + (n / 4096) % 64, 128 + (n / 64) % 64, 128 + n % 64]

/-- UTF-8 byte sequence of a string, as Go len and slicing see it. -/
def utf8Bytes (s : String) : List Nat :=
  (s.data.map utf8EncodeChar).flatten

/-- Length in bytes of the UTF-8 sequence a leading byte opens. -/
def utf8SeqLen (b : Nat) : Nat :=
  if b < 128 then 1
  else if b < 192 then 1
  else if b < 224 then 2
  else if b < 240 then 3
  else if b < 248 then 4
  else 1

/-- Decoded character count of a byte sequence: each leading byte consumes
its sequence (an invalid byte decodes as one replacement character, as Go
rune iteration does). -/
def runeCountAux : Nat → List Nat → Nat
  | 0, _ => 0
  | _ + 1, [] => 0
  | fuel + 1, b :: rest => 1 + runeCountAux fuel (rest.drop (utf8SeqLen b - 1))

def runeCountBytes (l : List Nat) : Nat := runeCountAux l.length l

/-- strconv.FormatFloat(x, f, 1, 64) for the in-range values the bot
formats: round to one decimal digit, ties to even. -/
def fmtF1 (q : ℚ) : String :=
  let x := q * 10
  let f := ⌊x⌋
  let r := x - (f : ℚ)
  let n := if r > 1 / 2 then f + 1 else if r < 1 / 2 then f else if f % 2 = 0 then f else f + 1
  let sign := if n < 0 then "-" else ""
  let m := n.natAbs
  sign ++ toString (m / 10) ++ "." ++ toString (m % 10)

/-- The fields of entities.ImageGenerationRequest that imagineMessageContent
reads.  The script argument lists are none when the script block is nil. -/
structure GenRecord where
  prompt : String
  seed : Int
  steps : Int
  cfgScale : ℚ
  samplerName : String
  width : Int
  height : Int
  enableHr : Bool
  hrScale : ℚ
  hrResizeX : Int
  hrResizeY : Int
  checkpoint : Option String
  vae : Option String
  hypernetwork : Option String
  adetailerModels : Option (List String)
  controlnetArgs : Option (List (String × String))
  deriving DecidableEq, Repr

/-- The string imagineMessageContent assembles before the length check.  The
progress bar renderer (p.Get().ViewAs) lives outside src and is passed in as
viewAs.  controlnetArgs pairs are (Module, Model); the source joins the
Module values under the ControlNet label and the Model values under the
Preprocessor label. -/
def imagineMessageBody (g : GenRecord) (userID : String) (progress : ℚ)
    (viewAs : ℚ → String) : String :=
  let seedString := toString g.seed
  let seedString := if seedString = "-1" then "at random(-1)" else seedString
  let out := "<@" ++ userID ++ "> asked me to imagine with step: `" ++ toString g.steps
    ++ "` cfg: `" ++ fmtF1 g.cfgScale ++ "` seed: `" ++ seedString
    ++ "` sampler: `" ++ g.samplerName ++ "`"
  let out := out ++ " `" ++ toString g.width ++ " x " ++ toString g.height ++ "`"
  let out :=
    if g.enableHr = true then
      out ++ " -> (x `" ++ fmtF1 g.hrScale ++ "` by hires.fix) = `"
        ++ toString g.hrResizeX ++ " x " ++ toString g.hrResizeY ++ "`"
    else out
  let out :=
    if ptrStringNotBlank g.checkpoint then
      out ++ "\n**Checkpoint**: `" ++ g.checkpoint.getD "" ++ "`"
    else out
  let out :=
    if ptrStringNotBlank g.vae then
      out ++ "\n**VAE**: `" ++ g.vae.getD "" ++ "`"
    else out
  let out :=
    if ptrStringNotBlank g.hypernetwork then
      (if ptrStringNotBlank g.vae then out ++ " " else out ++ "\n")
        ++ "**Hypernetwork**: `" ++ g.hypernetwork.getD "" ++ "`"
    else out
  let out :=
    if 0 ≤ progress ∧ progress < 1 then
      out ++ "\n**Progress**:\n```ansi\n" ++ viewAs progress ++ "\n```"
    else out
  let out := out ++ "\n```\n" ++ g.prompt ++ "\n```"
  let out :=
    match g.adetailerModels with
    | some models =>
      if 0 < models.length then
        out ++ "\n**ADetailer**: [" ++ String.intercalate ", " models ++ "]"
      else out
    | none => out
  let out :=
    match g.controlnetArgs with
    | some args =>
      if 0 < args.length then
        out ++ "\n**ControlNet**: [" ++ String.intercalate ", " (args.map (·.1))
          ++ "]\n**Preprocessor**: [" ++ String.intercalate ", " (args.map (·.2)) ++ "]"
      else out
    | none => out
  out

/-- imagineMessageContent: the assembled text, truncated to its first 2000
bytes when out.Len() exceeds 2000. -/
def imagineMessageContent (g : GenRecord) (userID : String) (progress : ℚ)
    (viewAs : ℚ → String) : List Nat :=
  let out := utf8Bytes (imagineMessageBody g userID progress viewAs)
  if out.length > 2000 then out.take 2000 else out

/-! ## Helper lemmas -/

theorem ptrStringCompare_iff (a b : Option String) : ptrStringCompare a b = true ↔ a = b := by
  cases a <;> cases b <;> simp [ptrStringCompare]

theorem pull_current_busy (s : QueueState) (item : QItem) (rest : List QItem)
    (hq : s.queue = item :: rest) (hc : s.currentImagine.isSome) :
    pullNextInQueue s = (s, [Effect.logWarning]) := by
  unfold pullNextInQueue
  split
  · rename_i hnil
    rw [hq] at hnil
    cases hnil
  · rename_i item1 rest1 hq1
    rw [if_pos hc]

theorem pull_current_busy_empty (s : QueueState)
    (hq : s.queue = []) :
    pullNextInQueue s = (s, []) := by
  unfold pullNextInQueue
  split
  · rfl
  · rename_i item1 rest1 hq1
    rw [hq] at hq1
    cases hq1

theorem pull_cancelled (s : QueueState) (item : QItem) (rest : List QItem) (hid : String)
    (hq : s.queue = item :: rest) (hc : s.currentImagine = none)
    (hh : item.handle = some hid) (hm : s.cancelledItems.contains hid = true) :
    pullNextInQueue s =
      ({ queue := rest, currentImagine := none,
         cancelledItems := s.cancelledItems.erase hid }, []) := by
  unfold pullNextInQueue
  split
  · rename_i hnil
    rw [hq] at hnil
    cases hnil
  · rename_i item1 rest1 hq1
    rw [hq] at hq1
    injection hq1 with h1 h2
    subst h1
    subst h2
    rw [if_neg (by simp [hc])]
    simp only [hh]
    split
    · simp [done]
    · simp_all

/-! ## Claim theorems -/

def qItemX : QItem := { itemType := ItemTypeImagine, handle := some "x" }

def fullPrimaryState : QueueState :=
  { queue := List.replicate 100 qItemX, currentImagine := none, cancelledItems := [] }

def fullNaiQueue : List QItem := List.replicate 24 qItemX

/-- C1 counterexample: the primary pipeline enqueue on a FIFO already holding
its 100-job capacity does not fail with a CapacityExceeded error and does not
leave the caller free: AddImagine performs an unguarded channel send, which
on a full buffer blocks the caller (modelled as none); the function has no
failing return at all. -/
theorem addImagine_full_blocks : AddImagine fullPrimaryState qItemX = none := by decide

/-- C1 amended: only the secondary (24-capacity) queue rejects an enqueue on
a full FIFO, returning position -1 and a queue-is-full error with the queue
unchanged; on a non-full FIFO it appends and returns the 1-based position.
The primary (100-capacity) pipeline appends and returns the 1-based position
while the FIFO has room, and on a full FIFO blocks the caller instead of
failing. -/
theorem enqueue_capacity_behaviour :
    (∀ (q : List QItem) (it : QItem), q.length = naiQueueCapacity →
        NAIQueue.Add q it = ⟨-1, some "queue is full", q⟩)
  ∧ (∀ (q : List QItem) (it : QItem), q.length < naiQueueCapacity →
        NAIQueue.Add q it = ⟨(q.length : Int) + 1, none, q ++ [it]⟩)
  ∧ (∀ (s : QueueState) (it : QItem), s.queue.length < sdQueueCapacity →
        AddImagine s it =
          some ({ s with queue := s.queue ++ [it] }, (s.queue.length : Int) + 1))
  ∧ (∀ (s : QueueState) (it : QItem), sdQueueCapacity ≤ s.queue.length →
        AddImagine s it = none) := by
  refine ⟨?_, ?_, ?_, ?_⟩
  · intro q it h
    simp [NAIQueue.Add, h]
  · intro q it h
    rw [NAIQueue.Add, if_neg (by simp only [beq_iff_eq]; omega)]
  · intro s it h
    rw [AddImagine, if_pos h]
  · intro s it h
    rw [AddImagine, if_neg (by omega)]

theorem enqueue_capacity_behaviour_witness :
    NAIQueue.Add fullNaiQueue qItemX = ⟨-1, some "queue is full", fullNaiQueue⟩ ∧
    AddImagine { queue := [], currentImagine := none, cancelledItems := [] } qItemX =
      some ({ queue := [qItemX], currentImagine := none, cancelledItems := [] }, 1) := by
  constructor
  · exact enqueue_capacity_behaviour.1 fullNaiQueue qItemX (by decide)
  · exact enqueue_capacity_behaviour.2.2.1
      { queue := [], currentImagine := none, cancelledItems := [] } qItemX (by decide)

/-- C2: the queue state holds at most one current job (a single optional
slot); an attempt to pull the next item while the current slot is occupied
changes nothing and only logs a warning (and does nothing at all when the
FIFO is empty); every exit of the processCurrentImagine body runs the
deferred done, which clears the current slot; done itself clears the slot
for the cancellation-skip and unknown-type paths that call it directly. -/
theorem current_slot_protocol :
    (∀ (s : QueueState) (item : QItem) (rest : List QItem),
        s.queue = item :: rest → s.currentImagine.isSome →
        pullNextInQueue s = (s, [Effect.logWarning]))
  ∧ (∀ s : QueueState, s.queue = [] → pullNextInQueue s = (s, []))
  ∧ (∀ (s : QueueState) (o : JobOutcome),
        (processCurrentImagineStep s o).1.currentImagine = none
      ∧ (processCurrentImagineStep s o).1.queue = s.queue)
  ∧ (∀ s : QueueState, (done s).currentImagine = none) := by
  refine ⟨?_, ?_, ?_, ?_⟩
  · intro s item rest hq hc
    exact pull_current_busy s item rest hq hc
  · intro s hq
    exact pull_current_busy_empty s hq
  · intro s o
    cases o <;> exact ⟨rfl, rfl⟩
  · intro s
    rfl

def busyState : QueueState :=
  { queue := [qItemX], currentImagine := some qItemX, cancelledItems := [] }

theorem current_slot_protocol_witness :
    pullNextInQueue busyState = (busyState, [Effect.logWarning]) ∧
    (processCurrentImagineStep busyState JobOutcome.completed).1.currentImagine = none :=
  ⟨current_slot_protocol.1 busyState qItemX [] (by decide) (by decide),
   (current_slot_protocol.2.2.1 busyState JobOutcome.completed).1⟩

/-- C3 counterexample: marking the handle of the job that is already current
does change the Cancellation Registry, contrary to the claim: RemoveFromQueue
inserts the handle unconditionally, without looking at the current slot. -/
theorem removeFromQueue_marks_current :
    (RemoveFromQueue
        { queue := [], currentImagine := some qItemX, cancelledItems := [] }
        "x").cancelledItems ≠
      ({ queue := [], currentImagine := some qItemX, cancelledItems := [] } :
        QueueState).cancelledItems := by
  decide

/-- C3 amended: a job whose handle was marked while still queued is, at
dequeue time, removed together with its registry entry, never dispatched and
never left current, with no backend call and no reply (the step returns no
effects); marking the handle of the current job leaves the queue and the
running generation untouched but still records the handle in the registry,
where the entry lingers unconsumed (stopping the current job takes the
interrupt path, which fails exactly when no job is current). -/
theorem cancellation_registry_behaviour :
    (∀ (s : QueueState) (item : QItem) (rest : List QItem) (hid : String),
        s.queue = item :: rest → s.currentImagine = none →
        item.handle = some hid → s.cancelledItems.contains hid = true →
        pullNextInQueue s =
          ({ queue := rest, currentImagine := none,
             cancelledItems := s.cancelledItems.erase hid }, []))
  ∧ (∀ (s : QueueState) (hid : String),
        (RemoveFromQueue s hid).currentImagine = s.currentImagine
      ∧ (RemoveFromQueue s hid).queue = s.queue
      ∧ (RemoveFromQueue s hid).cancelledItems.contains hid = true)
  ∧ (∀ s : QueueState, s.currentImagine = none →
        Interrupt s = .error "there is no generation currently in progress") := by
  refine ⟨?_, ?_, ?_⟩
  · intro s item rest hid hq hc hh hm
    exact pull_cancelled s item rest hid hq hc hh hm
  · intro s hid
    refine ⟨rfl, rfl, ?_⟩
    by_cases h : hid ∈ s.cancelledItems <;> simp [RemoveFromQueue, h]
  · intro s hc
    simp [Interrupt, hc]

def cancelledQueuedState : QueueState :=
  { queue := [{ itemType := ItemTypeImagine, handle := some "B" }],
    currentImagine := none, cancelledItems := ["B"] }

theorem cancellation_registry_behaviour_witness :
    pullNextInQueue cancelledQueuedState =
      ({ queue := [], currentImagine := none, cancelledItems := [] }, []) ∧
    (RemoveFromQueue cancelledQueuedState "A").cancelledItems.contains "A" = true := by
  constructor
  · have h := cancellation_registry_behaviour.1 cancelledQueuedState
      { itemType := ItemTypeImagine, handle := some "B" } [] "B"
      (by decide) (by decide) (by decide) (by decide)
    simpa using h
  · exact (cancellation_registry_behaviour.2.1 cancelledQueuedState "A").2.2

/-- A model environment with empty cached inventories and a fuzzy search
that finds nothing, so requested names pass through unresolved. -/
def envNoFuzzy : ModelEnv :=
  { checkpointCache := .ok []
    vaeCache := .ok []
    hypernetworkCache := .ok []
    fuzzyTop := fun _ _ => none }

def liveC4 : SDConfig :=
  { sdModelCheckpoint := some "B", sdVae := some "None", sdHypernetwork := none }

def requestC4 : RequestedModels :=
  { checkpoint := some "A", vae := some "None", hypernetwork := none }

/-- C4 counterexample: with checkpoint A requested against loaded B (so a
patch call is made) and the VAE slot requested as the same name the backend
already has loaded, the outbound patch still carries that VAE slot: the
patch does not contain exactly the slots whose resolved name differs from
the live configuration. -/
theorem lookupModel_includes_unchanged_slot :
    (updateModels envNoFuzzy requestC4 liveC4).2.2 =
      [{ sdModelCheckpoint := some "A", sdVae := some "None", sdHypernetwork := none }]
    ∧ (lookupModel envNoFuzzy requestC4 liveC4).sdVae = liveC4.sdVae
    ∧ (lookupModel envNoFuzzy requestC4 liveC4).sdVae ≠ none := by
  refine ⟨rfl, rfl, by decide⟩

/-- C4 amended: when the three raw requested names already equal the live
configuration, no configuration-update call is issued; otherwise one patch
call is issued whose contents ignore the live configuration entirely: a slot
is absent from the patch exactly when it was not requested, was requested as
the empty string, or its inventory fetch failed, and every other requested
slot is present (fuzzily resolved) whether or not it differs from the live
value. -/
theorem updateModels_patch_behaviour :
    (∀ (env : ModelEnv) (req : RequestedModels) (backend : SDConfig),
        ptrStringCompare req.checkpoint backend.sdModelCheckpoint = true →
        ptrStringCompare req.vae backend.sdVae = true →
        ptrStringCompare req.hypernetwork backend.sdHypernetwork = true →
        updateModels env req backend = (backend, backend, []))
  ∧ (∀ (env : ModelEnv) (req : RequestedModels) (b1 b2 : SDConfig),
        lookupModel env req b1 = lookupModel env req b2)
  ∧ (∀ (env : ModelEnv) (cache : Except Unit (List String)),
        lookupSlot env cache none = none ∧ lookupSlot env cache (some "") = none)
  ∧ (∀ (env : ModelEnv) (s : String), s ≠ "" → s ≠ "None" →
        lookupSlot env (.error ()) (some s) = none)
  ∧ (∀ (env : ModelEnv) (inv : List String) (s : String), s ≠ "" →
        (lookupSlot env (.ok inv) (some s)).isSome = true) := by
  refine ⟨?_, ?_, ?_, ?_, ?_⟩
  · intro env req backend h1 h2 h3
    simp [updateModels, h1, h2, h3]
  · intro env req b1 b2
    rfl
  · intro env cache
    exact ⟨rfl, rfl⟩
  · intro env s hne hnone
    simp [lookupSlot, hne, hnone]
  · intro env inv s hne
    by_cases hnone : s = "None"
    · simp [lookupSlot, hne, hnone]
    · cases hf : env.fuzzyTop s inv <;> simp [lookupSlot, hne, hnone, hf]

theorem updateModels_patch_behaviour_witness :
    updateModels envNoFuzzy
      { checkpoint := some "B", vae := some "None", hypernetwork := none } liveC4 =
      (liveC4, liveC4, []) ∧
    lookupSlot envNoFuzzy (.ok []) (some "m") = some "m" ∧
    (lookupSlot envNoFuzzy (.ok []) (some "m")).isSome = true := by
  refine ⟨?_, by decide, ?_⟩
  · exact updateModels_patch_behaviour.1 envNoFuzzy
      { checkpoint := some "B", vae := some "None", hypernetwork := none } liveC4
      (by decide) (by decide) (by decide)
  · exact updateModels_patch_behaviour.2.2.2.2 envNoFuzzy [] "m" (by decide)

def originalC5 : SDConfig :=
  { sdModelCheckpoint := some "A", sdVae := none, sdHypernetwork := none }

/-- C5 counterexample, two independent failures of the revert guarantee.
First, the revert step compares the post-switch snapshot, not the live
configuration at completion time: when the job needed no switch and the live
configuration changes mid-job, the comparison sees no difference, no
reverting patch is issued, and the backend does not return to its pre-job
state.  Second, even with no mid-job change, a slot that was absent in the
original and set by the switch cannot be restored, because the reverting
patch omits absent slots. -/
theorem revertModels_not_pre_job_state :
    processJobModels envNoFuzzy
        { checkpoint := some "A", vae := none, hypernetwork := none }
        originalC5 (fun c => { c with sdModelCheckpoint := some "B" }) ≠ originalC5
    ∧ processJobModels envNoFuzzy
        { checkpoint := none, vae := some "V", hypernetwork := none }
        originalC5 id ≠ originalC5 := by
  constructor
  · decide
  · decide

/-- C5 amended: the revert step compares the configuration snapshot taken
just after the switch against the recorded original per slot with
ptrStringCompare (absent-vs-absent equal) and issues a reverting patch
carrying the three original slots exactly when some slot differs.  The
backend therefore returns to its pre-job configuration provided nothing
besides the switch changed the configuration mid-job and every slot of the
original configuration was present (absent original slots are omitted from
the reverting patch and stay at whatever the switch set). -/
theorem revertModels_restores_present_slots :
    ∀ (env : ModelEnv) (req : RequestedModels) (b0 : SDConfig),
      b0.sdModelCheckpoint.isSome = true →
      b0.sdVae.isSome = true →
      b0.sdHypernetwork.isSome = true →
      processJobModels env req b0 id = b0 := by
  intro env req b0 h1 h2 h3
  unfold processJobModels updateModels
  split
  · rename_i hmatch
    simp only [id]
    unfold revertModels
    rw [if_neg]
    simp [ptrStringCompare_iff]
  · rename_i hmatch
    simp only [id]
    unfold revertModels
    split
    · rename_i hdiff
      obtain ⟨v1, hv1⟩ := Option.isSome_iff_exists.mp h1
      obtain ⟨v2, hv2⟩ := Option.isSome_iff_exists.mp h2
      obtain ⟨v3, hv3⟩ := Option.isSome_iff_exists.mp h3
      cases b0
      simp_all [applyPatch]
    · rename_i hsame
      rw [not_not] at hsame
      obtain ⟨hc1, hc2, hc3⟩ := hsame
      rw [ptrStringCompare_iff] at hc1 hc2 hc3
      cases b0
      cases hl : applyPatch (lookupModel env req _) _
      simp_all

theorem between_one_two_bounds (v : ℚ) : 1 ≤ between v 1 2 ∧ between v 1 2 ≤ 2 :=
  ⟨le_min (le_max_left 1 v) one_le_two, min_le_right _ _⟩

theorem goParseIntCore_false_nonneg (ds : List Char) (r : Int)
    (h : goParseIntCore false ds = some r) : 0 ≤ r := by
  unfold goParseIntCore at h
  split at h
  · cases h
  · rename_i v k rest heq
    simp only [if_neg, Bool.false_eq_true, if_false] at h
    split at h
    · cases h
    · cases h
      exact Int.ofNat_nonneg v
  · cases h

theorem goParseInt_digits_nonneg (ds : List Char) (r : Int)
    (hne : ds ≠ []) (hdig : ∀ c ∈ ds, c.isDigit = true)
    (h : goParseInt (String.mk ds) = some r) : 0 ≤ r := by
  unfold goParseInt at h
  cases ds with
  | nil => exact absurd rfl hne
  | cons c cs =>
    have hc : c.isDigit = true := hdig c (List.mem_cons_self c cs)
    have hminus : ¬ (c = '-') := fun hcc => by subst hcc; cases hc
    have hplus : ¬ (c = '+') := fun hcc => by subst hcc; cases hc
    rw [show (String.mk (c :: cs)).data = c :: cs from rfl] at h
    simp only [hminus, hplus, if_false] at h
    exact goParseIntCore_false_nonneg (c :: cs) r h

theorem captureDigits_spec (cs cap rest : List Char)
    (h : captureDigits cs = some (cap, rest)) :
    cap ≠ [] ∧ ∀ c ∈ cap, c.isDigit = true := by
  unfold captureDigits at h
  split at h
  · cases h
  · rename_i hds
    injection h with h1
    injection h1 with h1 h2
    constructor
    · rw [← h1]
      exact hds
    · intro c hc
      rw [← h1, List.span_eq_take_drop] at hc
      exact List.mem_takeWhile_imp hc

theorem matchDirCore_capture_src (lit : List Char)
    (capture : List Char → Option (List Char × List Char)) (cs cap rem : List Char)
    (h : matchDirCore lit capture cs = some (cap, rem)) :
    ∃ src rest2, capture src = some (cap, rest2) := by
  unfold matchDirCore at h
  split at h
  · cases h
  · rename_i rest hdrop
    split at h
    · cases h
    · rename_i cap0 rest2 hcap
      refine ⟨rest, ?_⟩
      split at h
      · rename_i c r
        split at h
        · cases h
          exact ⟨_, hcap⟩
        · cases h
          exact ⟨_, hcap⟩
      · cases h
        exact ⟨_, hcap⟩

theorem matchDirAt_capture_src (lit : List Char)
    (capture : List Char → Option (List Char × List Char)) (cs cap rem : List Char)
    (h : matchDirAt lit capture cs = some (cap, rem)) :
    ∃ src rest2, capture src = some (cap, rest2) := by
  unfold matchDirAt at h
  split at h
  · rename_i c r
    split at h
    · rcases ho : matchDirCore lit capture r with _ | p
      · rw [ho] at h
        simp only [Option.orElse] at h
        exact matchDirCore_capture_src lit capture (c :: r) cap rem (by simpa [ho] using h)
      · rw [ho] at h
        simp only [Option.orElse] at h
        cases p with
        | mk cap0 rem0 =>
          cases h
          exact matchDirCore_capture_src lit capture r cap rem ho
    · exact matchDirCore_capture_src lit capture (c :: r) cap rem h
  · cases h

theorem scanDirAux_capture_src (lit : List Char)
    (capture : List Char → Option (List Char × List Char)) :
    ∀ (fuel : Nat) (cs cap : List Char),
      cap ∈ (scanDirAux lit capture fuel cs).1 →
      ∃ src rest2, capture src = some (cap, rest2) := by
  intro fuel
  induction fuel with
  | zero => intro cs cap hmem; simp [scanDirAux] at hmem
  | succ n ih =>
    intro cs cap hmem
    cases cs with
    | nil => simp [scanDirAux] at hmem
    | cons c rest =>
      unfold scanDirAux at hmem
      split at hmem
      · rename_i cap0 rem0 hmc
        rcases hsd : scanDirAux lit capture n rem0 with ⟨caps, keep⟩
        rw [hsd] at hmem
        simp only [List.mem_cons] at hmem
        rcases hmem with hmem | hmem
        · subst hmem
          exact matchDirAt_capture_src lit capture (c :: rest) cap rem0 hmc
        · exact ih rem0 cap (by rw [hsd]; exact hmem)
      · exact ih rest cap hmem

theorem scanDir_capture_src (lit : String)
    (capture : List Char → Option (List Char × List Char)) (p : String) (cap : String)
    (s : String) (h : scanDir lit capture p = (some cap, s)) :
    ∃ src rest2, capture src = some (cap.data, rest2) := by
  unfold scanDir at h
  injection h with h1 h2
  rcases hh : (scanDirAux lit.data capture (p.data.length + 1) p.data).1.head? with _ | capData
  · rw [hh] at h1; cases h1
  · rw [hh] at h1
    injection h1 with h1
    have hmem : capData ∈ (scanDirAux lit.data capture (p.data.length + 1) p.data).1 :=
      List.mem_of_mem_head? hh
    obtain ⟨src, rest2, hc⟩ := scanDirAux_capture_src lit.data capture _ _ _ hmem
    refine ⟨src, rest2, ?_⟩
    rw [← h1]
    exact hc

theorem revertModels_restores_present_slots_witness :
    processJobModels envNoFuzzy
      { checkpoint := some "C", vae := some "None", hypernetwork := none }
      { sdModelCheckpoint := some "A", sdVae := some "V", sdHypernetwork := some "H" }
      id =
      { sdModelCheckpoint := some "A", sdVae := some "V", sdHypernetwork := some "H" } :=
  revertModels_restores_present_slots envNoFuzzy
    { checkpoint := some "C", vae := some "None", hypernetwork := none }
    { sdModelCheckpoint := some "A", sdVae := some "V", sdHypernetwork := some "H" }
    (by decide) (by decide) (by decide)

/-- The item of the C6 example prompt, with the 512 x 512 base and the
defaults of DefaultQueueItem. -/
def itemC6 : ItemParams :=
  { prompt := "a cat --ar 16:9 --step 30 --seed 42 extra"
    aspectRatio := ""
    useHiresFix := false
    hiresUpscaleRate := 1
    seed := -1
    cfgScale := 7
    steps := 20 }

set_option maxRecDepth 10000 in
/-- C6 counterexample: the keyValue value token class has no colon, so the
ar directive captures only "16", the residue ":9" survives into the
sanitized prompt, and aspectRatioCalculation rejects the one-part ratio,
leaving the dimensions at 512 x 512: the claimed sanitized prompt
"a cat extra" and width 912 are both wrong. -/
theorem directive_parse_example_fails :
    ¬ ((deriveParameters itemC6 512 512).prompt = "a cat extra"
       ∧ (deriveParameters itemC6 512 512).width = 912) := by
  intro h
  exact absurd h.1 (by with_unfolding_all decide)

set_option maxRecDepth 10000 in
/-- C6 amended: the example prompt parses to sanitized prompt
"a cat :9   extra" (the ar value stops at the colon and the residue stays),
dimensions unchanged at 512 x 512, steps 30 and seed 42; the 16:9 scaling to
width 912 happens only when the ratio reaches aspectRatioCalculation whole,
as it does through the dedicated aspect-ratio option field. -/
theorem directive_parse_example :
    deriveParameters itemC6 512 512 =
      { prompt := "a cat :9   extra", width := 512, height := 512, steps := 30,
        cfgScale := 7, seed := 42, enableHr := false, hrScale := 1,
        hrResizeX := 512, hrResizeY := 512 }
    ∧ aspectRatioCalculation "16:9" 512 512 = (912, 512)
    ∧ (extractKeyValuePairsFromPrompt itemC6.prompt).2 = "a cat :9   extra"
    ∧ lookupParam (extractKeyValuePairsFromPrompt itemC6.prompt).1 "ar" = some "16" := by
  refine ⟨by with_unfolding_all decide, by with_unfolding_all decide,
    by with_unfolding_all decide, by with_unfolding_all decide⟩

def itemC7 : ItemParams :=
  { prompt := "a --cfgscale 100"
    aspectRatio := ""
    useHiresFix := false
    hiresUpscaleRate := 1
    seed := -1
    cfgScale := 7
    steps := 20 }

def itemC7zoom : ItemParams :=
  { prompt := "a --zoom 0.5"
    aspectRatio := ""
    useHiresFix := true
    hiresUpscaleRate := 3 / 2
    seed := -1
    cfgScale := 7
    steps := 20 }

set_option maxRecDepth 10000 in
/-- C7 counterexample: in the live parameter derivation a --cfgscale value
outside [1, 30] is stored as is (100 instead of the default 7), and a --zoom
value outside [1, 4] is clamped by between into [1, 2] (0.5 becomes 1, not
the default 1.5). -/
theorem directive_range_fallback_fails :
    (deriveParameters itemC7 512 512).cfgScale = 100
    ∧ (deriveParameters itemC7 512 512).cfgScale ≠ 7
    ∧ (deriveParameters itemC7zoom 512 512).hrScale = 1
    ∧ (deriveParameters itemC7zoom 512 512).hrScale ≠ 3 / 2 := by
  refine ⟨by with_unfolding_all decide, by with_unfolding_all decide,
    by with_unfolding_all decide, by with_unfolding_all decide⟩

theorem derive_hrScale_between (c : ItemParams) (dw dh : Int) :
    ∃ v, (deriveParameters c dw dh).hrScale = between v 1 2 := by
  unfold deriveParameters
  dsimp only
  repeat' split
  all_goals exact ⟨_, rfl⟩

set_option maxRecDepth 10000 in
/-- C7 amended: only the deprecated extractors replace an out-of-range value
by the supplied default (their result is always the default or an in-range
value); the live derivation applies a parsed --cfgscale with no range check
at all and forces the hires scale through between, so it always lands in
[1, 2], silently clamping out-of-range --zoom values. -/
theorem directive_range_behaviour :
    (∀ (p : String) (d : ℚ) (r : String × ℚ),
        extractCFGScaleFromPrompt p d = some r → r.2 = d ∨ (1 ≤ r.2 ∧ r.2 ≤ 30))
  ∧ (∀ (p : String) (d : ℚ) (r : String × ℚ),
        extractZoomScaleFromPrompt p d = some r → r.2 = d ∨ (1 ≤ r.2 ∧ r.2 ≤ 4))
  ∧ (∀ (c : ItemParams) (dw dh : Int),
        1 ≤ (deriveParameters c dw dh).hrScale ∧ (deriveParameters c dw dh).hrScale ≤ 2)
  ∧ (deriveParameters itemC7 512 512).cfgScale = 100 := by
  refine ⟨?_, ?_, ?_, by with_unfolding_all decide⟩
  · intro p d r h
    unfold extractCFGScaleFromPrompt at h
    split at h
    · cases h
      exact Or.inl rfl
    · split at h
      · cases h
      · rename_i c hparse
        cases h
        by_cases hrange : c < 1 ∨ c > 30
        · rw [if_pos hrange]
          exact Or.inl rfl
        · rw [if_neg hrange]
          push_neg at hrange
          exact Or.inr ⟨hrange.1, hrange.2⟩
  · intro p d r h
    unfold extractZoomScaleFromPrompt at h
    split at h
    · cases h
      exact Or.inl rfl
    · split at h
      · cases h
      · rename_i z hparse
        cases h
        by_cases hrange : z < 1 ∨ z > 4
        · rw [if_pos hrange]
          exact Or.inl rfl
        · rw [if_neg hrange]
          push_neg at hrange
          exact Or.inr ⟨hrange.1, hrange.2⟩
  · intro c dw dh
    obtain ⟨v, hv⟩ := derive_hrScale_between c dw dh
    rw [hv]
    exact between_one_two_bounds v

set_option maxRecDepth 10000 in
theorem directive_range_behaviour_witness :
    ((7 : ℚ) = 7 ∨ (1 ≤ (7 : ℚ) ∧ (7 : ℚ) ≤ 30)) ∧
    (1 ≤ (deriveParameters itemC7zoom 512 512).hrScale
      ∧ (deriveParameters itemC7zoom 512 512).hrScale ≤ 2) := by
  constructor
  · exact directive_range_behaviour.1 "x --cfgscale 35 a" 7 ("xa", 7)
      (by with_unfolding_all decide)
  · exact directive_range_behaviour.2.2.1 itemC7zoom 512 512

def itemC8 : ItemParams :=
  { prompt := "a cat"
    aspectRatio := ""
    useHiresFix := false
    hiresUpscaleRate := 1
    seed := 0
    cfgScale := 7
    steps := 20 }

set_option maxRecDepth 10000 in
/-- C8 counterexample: in the live parameter derivation a default seed of 0
with no --seed directive stays 0; it is not mapped to -1 (only the
deprecated extractSeedFromPrompt, which this path does not call, performs
that mapping). -/
theorem seed_default_zero_not_random :
    (deriveParameters itemC8 512 512).seed = 0
    ∧ (deriveParameters itemC8 512 512).seed ≠ -1 := by
  refine ⟨by with_unfolding_all decide, by with_unfolding_all decide⟩

set_option maxRecDepth 10000 in
/-- C8 amended: in the deprecated extractor a parsed --seed directive value
(a digit literal) lands in [0, 2^63 - 1] after the min with MaxInt64, and
with a default of at least -1 every successful result lies in
[-1, 2^63 - 1]; a digit literal beyond int64 makes ParseInt fail, which is
an error, not a clamp; absent a directive a zero default becomes -1 and a
nonzero default passes through min with MaxInt64.  The live derivation
stores a parsed directive seed unchanged and keeps the default otherwise,
with no zero-to-random mapping. -/
theorem seed_directive_behaviour :
    (∀ (p : String) (d : Int) (r : String × Int), -1 ≤ d →
        extractSeedFromPrompt p d = some r → -1 ≤ r.2 ∧ r.2 ≤ int64Max)
  ∧ (∀ (p : String) (d : Int), (scanDir "--seed " captureDigits p).1 = none →
        extractSeedFromPrompt p d = some (p, if d = 0 then -1 else min int64Max d))
  ∧ extractSeedFromPrompt "h --seed 99999999999999999999 x" 0 = none
  ∧ (deriveParameters itemC8 512 512).seed = 0
  ∧ (deriveParameters itemC6 512 512).seed = 42 := by
  refine ⟨?_, ?_, by with_unfolding_all decide, by with_unfolding_all decide,
    by with_unfolding_all decide⟩
  · intro p d r hd h
    unfold extractSeedFromPrompt at h
    split at h
    · cases h
      by_cases h0 : d = 0
      · simp only [h0, if_true]
        constructor
        · exact le_refl _
        · decide
      · simp only [h0, if_false]
        constructor
        · exact le_min (by decide) hd
        · exact min_le_left _ _
    · rename_i capture sanitized hscan
      split at h
      · cases h
      · rename_i sv hparse
        cases h
        constructor
        · refine le_trans (by decide : (-1 : Int) ≤ 0) (le_min (by decide) ?_)
          obtain ⟨src, rest2, hcap⟩ :=
            scanDir_capture_src "--seed " captureDigits p capture sanitized hscan
          obtain ⟨hne, hdig⟩ := captureDigits_spec src capture.data rest2 hcap
          have : capture = String.mk capture.data := rfl
          rw [this] at hparse
          exact goParseInt_digits_nonneg capture.data sv hne hdig hparse
        · exact min_le_left _ _
  · intro p d hnone
    unfold extractSeedFromPrompt
    rcases hs : scanDir "--seed " captureDigits p with ⟨c?, san⟩
    rw [hs] at hnone
    dsimp at hnone
    subst hnone
    rfl

set_option maxRecDepth 10000 in
theorem seed_directive_behaviour_witness :
    (-1 ≤ (42 : Int) ∧ (42 : Int) ≤ int64Max) ∧
    extractSeedFromPrompt "b" 0 = some ("b", if (0 : Int) = 0 then -1 else min int64Max 0) := by
  constructor
  · exact seed_directive_behaviour.1 "h --seed 42 x" 0 ("hx", 42) (by decide)
      (by with_unfolding_all decide)
  · exact seed_directive_behaviour.2.1 "b" 0 (by with_unfolding_all decide)

/-- C9: the tick branch of the progress poller.  Any run of ticks whose
progress query returns exactly zero performs no status edit and leaves the
loop exactly where it was; a tick whose progress query fails terminates the
poller at once with the query error surfaced and the remaining events (in
particular all further ticks) never examined; a tick with nonzero progress
whose status edit fails likewise terminates the poller at once. -/
theorem progress_poller_tick_behaviour :
    (∀ (n : Nat) (b : Bool) (rest : List PollEvent) (edits : Nat),
        updateProgressBar (List.replicate n (.tick (some 0) b) ++ rest) edits =
          updateProgressBar rest edits)
  ∧ (∀ (b : Bool) (rest : List PollEvent) (edits : Nat),
        updateProgressBar (.tick none b :: rest) edits = (edits, .tickQueryError))
  ∧ (∀ (p : ℚ) (rest : List PollEvent) (edits : Nat), p ≠ 0 →
        updateProgressBar (.tick (some p) false :: rest) edits =
          (edits, .tickRenderError)) := by
  refine ⟨?_, ?_, ?_⟩
  · intro n b
    induction n with
    | zero => intro rest edits; rfl
    | succ k ih =>
      intro rest edits
      rw [List.replicate_succ, List.cons_append]
      have hstep :
          updateProgressBar
            (.tick (some 0) b :: (List.replicate k (.tick (some 0) b) ++ rest)) edits =
          updateProgressBar (List.replicate k (.tick (some 0) b) ++ rest) edits := by
        simp [updateProgressBar]
      rw [hstep]
      exact ih rest edits
  · intro b rest edits
    rfl
  · intro p rest edits hp
    simp [updateProgressBar, hp]

theorem progress_poller_tick_behaviour_witness :
    updateProgressBar
        (List.replicate 3 (.tick (some 0) true) ++ [.tick none true]) 0 =
      (0, .tickQueryError) := by
  rw [progress_poller_tick_behaviour.1 3 true [.tick none true] 0]
  exact progress_poller_tick_behaviour.2.1 true [] 0

theorem runeCountAux_le (fuel : Nat) : ∀ l : List Nat, runeCountAux fuel l ≤ l.length := by
  induction fuel with
  | zero => intro l; simp [runeCountAux]
  | succ n ih =>
    intro l
    cases l with
    | nil => simp [runeCountAux]
    | cons b rest =>
      unfold runeCountAux
      calc 1 + runeCountAux n (rest.drop (utf8SeqLen b - 1))
          ≤ 1 + (rest.drop (utf8SeqLen b - 1)).length := by
            exact Nat.add_le_add_left (ih _) 1
        _ ≤ 1 + rest.length := by
            exact Nat.add_le_add_left (by simpa using List.length_drop_le _ _) 1
        _ = (b :: rest).length := by simp [Nat.add_comm]

theorem runeCountBytes_le (l : List Nat) : runeCountBytes l ≤ l.length :=
  runeCountAux_le l.length l

/-- C10 amended: the status message is at most 2000 bytes and therefore at
most 2000 decoded characters; the truncation keeps the first 2000 UTF-8
bytes, not the first 2000 characters. -/
theorem imagineMessageContent_length_bound :
    ∀ (g : GenRecord) (u : String) (pr : ℚ) (va : ℚ → String),
      (imagineMessageContent g u pr va).length ≤ 2000
      ∧ runeCountBytes (imagineMessageContent g u pr va) ≤ 2000 := by
  intro g u pr va
  unfold imagineMessageContent
  set bs := utf8Bytes (imagineMessageBody g u pr va) with hbs
  by_cases h : bs.length > 2000
  · rw [if_pos h]
    constructor
    · simpa using Nat.le_of_eq (List.length_take_of_le (le_of_lt h))
    · exact le_trans (runeCountBytes_le _)
        (by simpa using Nat.le_of_eq (List.length_take_of_le (le_of_lt h)))
  · rw [if_neg h]
    push_neg at h
    exact ⟨h, le_trans (runeCountBytes_le _) h⟩

/-- A record whose assembled message exceeds 2000 characters and starts with
a two-byte character inside the first 2000: used to separate byte and
character truncation. -/
def genC10 : GenRecord :=
  { prompt := "é" ++ String.mk (List.replicate 1950 'a')
    seed := 42
    steps := 5
    cfgScale := 7
    samplerName := "k"
    width := 512
    height := 512
    enableHr := false
    hrScale := 1
    hrResizeX := 512
    hrResizeY := 512
    checkpoint := none
    vae := none
    hypernetwork := none
    adetailerModels := none
    controlnetArgs := none }

def viewAs0 : ℚ → String := fun _ => ""

def bodyC10 : String := imagineMessageBody genC10 "u" 1 viewAs0

theorem str_data_append (a b : String) : (a ++ b).data = a.data ++ b.data := rfl

/-- imagineMessageBody with every optional section disabled collapses to the
header, the dimensions and the fenced prompt. -/
theorem imagineMessageBody_plain (g : GenRecord) (u : String) (pr : ℚ) (va : ℚ → String)
    (hseed : ¬ toString g.seed = "-1")
    (hhr : g.enableHr = false)
    (hcp : g.checkpoint = none) (hvae : g.vae = none) (hhyp : g.hypernetwork = none)
    (hpr : ¬ (0 ≤ pr ∧ pr < 1))
    (had : g.adetailerModels = none) (hcn : g.controlnetArgs = none) :
    imagineMessageBody g u pr va =
      "<@" ++ u ++ "> asked me to imagine with step: `" ++ toString g.steps
        ++ "` cfg: `" ++ fmtF1 g.cfgScale ++ "` seed: `" ++ toString g.seed
        ++ "` sampler: `" ++ g.samplerName ++ "`"
        ++ " `" ++ toString g.width ++ " x " ++ toString g.height ++ "`"
        ++ "\n```\n" ++ g.prompt ++ "\n```" := by
  unfold imagineMessageBody
  simp only [hhr, hcp, hvae, hhyp, had, hcn]
  rw [if_neg hseed, if_neg hpr]
  simp [ptrStringNotBlank]

def pfxC10 : String :=
  "<@u> asked me to imagine with step: `5` cfg: `7.0` seed: `42` sampler: `k` `512 x 512`\n```\n"

theorem bodyC10_eq : bodyC10 = (pfxC10 ++ genC10.prompt) ++ "\n```" := by
  rw [bodyC10, imagineMessageBody_plain genC10 "u" 1 viewAs0
    (by with_unfolding_all decide) rfl rfl rfl rfl
    (by with_unfolding_all decide) rfl rfl]
  congr 1
  congr 1
  with_unfolding_all decide

theorem bodyC10_data :
    bodyC10.data = pfxC10.data ++ ('é' :: (List.replicate 1950 'a' ++ "\n```".data)) := by
  rw [bodyC10_eq]
  rw [show genC10.prompt = "é" ++ String.mk (List.replicate 1950 'a') from rfl]
  simp only [str_data_append, List.append_assoc]
  rfl

theorem flatten_replicate_singleton (n : Nat) (x : Nat) :
    (List.replicate n [x]).flatten = List.replicate n x := by
  induction n with
  | zero => rfl
  | succ k ih => simp [List.replicate_succ, ih]

theorem pfxC10_data_length : pfxC10.data.length = 91 := by decide

theorem pfxC10_bytes_length : ((pfxC10.data.map utf8EncodeChar).flatten).length = 91 := by
  with_unfolding_all decide

set_option maxRecDepth 10000 in
theorem bodyC10_char_length : bodyC10.data.length = 2046 := by
  rw [bodyC10_data]
  simp [pfxC10_data_length]
  rfl

set_option maxRecDepth 10000 in
theorem bodyC10_byte_length : (utf8Bytes bodyC10).length = 2047 := by
  unfold utf8Bytes
  rw [bodyC10_data]
  simp only [List.map_append, List.map_cons, List.flatten_append, List.flatten_cons,
    List.length_append, List.map_replicate, pfxC10_bytes_length]
  rw [show utf8EncodeChar 'é' = [195, 169] from by with_unfolding_all decide,
    show utf8EncodeChar 'a' = [97] from by with_unfolding_all decide,
    flatten_replicate_singleton]
  simp
  with_unfolding_all decide

set_option maxRecDepth 10000 in
theorem bodyC10_take2000 :
    bodyC10.data.take 2000 = pfxC10.data ++ ('é' :: List.replicate 1908 'a') := by
  rw [bodyC10_data, List.take_append_eq_append_take,
    List.take_all_of_le (by rw [pfxC10_data_length]; omega), pfxC10_data_length]
  rw [show (2000 - 91 : Nat) = 1908 + 1 from rfl, List.take_succ_cons,
    List.take_append_eq_append_take, List.take_replicate, List.length_replicate]
  simp

set_option maxRecDepth 10000 in
theorem take2000_bytes_length :
    (utf8Bytes (String.mk (bodyC10.data.take 2000))).length = 2001 := by
  unfold utf8Bytes
  rw [show (String.mk (bodyC10.data.take 2000)).data = bodyC10.data.take 2000 from rfl,
    bodyC10_take2000]
  simp only [List.map_append, List.map_cons, List.flatten_append, List.flatten_cons,
    List.length_append, List.map_replicate, pfxC10_bytes_length]
  rw [show utf8EncodeChar 'é' = [195, 169] from by with_unfolding_all decide,
    show utf8EncodeChar 'a' = [97] from by with_unfolding_all decide,
    flatten_replicate_singleton]
  simp

/-- C10 counterexample: the assembled content has 2046 characters, more than
2000, yet the returned message is not the encoding of its first 2000
characters: out.String()[:2000] cuts at 2000 bytes, and the two-byte
character before the cut shifts the boundary, so the returned 2000 bytes
cover only 1999 whole characters plus half of the two-byte one. -/
theorem imagineMessageContent_not_char_truncation :
    2000 < bodyC10.data.length
    ∧ imagineMessageContent genC10 "u" 1 viewAs0 ≠
        utf8Bytes (String.mk (bodyC10.data.take 2000)) := by
  constructor
  · rw [bodyC10_char_length]
    omega
  · intro h
    have hL := congrArg List.length h
    have hcontent : (imagineMessageContent genC10 "u" 1 viewAs0).length = 2000 := by
      unfold imagineMessageContent
      rw [if_pos (by rw [show utf8Bytes (imagineMessageBody genC10 "u" 1 viewAs0) =
            utf8Bytes bodyC10 from rfl, bodyC10_byte_length]; omega)]
      rw [List.length_take,
        show utf8Bytes (imagineMessageBody genC10 "u" 1 viewAs0) =
          utf8Bytes bodyC10 from rfl, bodyC10_byte_length]
      rfl
    rw [hcontent, take2000_bytes_length] at hL
    exact absurd hL (by decide)

end SDBot
